import Mathlib

/-!
Shallow embedding of `src/minesweeper.py` (class `Sentence` and class
`MinesweeperAI`), the knowledge-based Minesweeper agent.

Modelling choices:
* A board cell `(row, column)` is a pair of naturals (all coordinates the
  program manipulates are produced by `range(max(0, x-1), ...)`, hence
  non-negative).
* A Python `set` of cells is a duplicate-free `List Cell`; `set.add` is
  `setAdd` (append when absent), `-` is `setDiff`, iteration order is the
  list order (Python's set iteration order is unspecified; any fixed order
  is a legitimate refinement).
* The dict `self.knowledge` is an association list `List (Cell × Sentence)`
  with Python-dict update semantics (`dictSet` replaces in place or appends).
* Counts are integers (`sentence.count -= 1` can drive them negative).
* `Sentence.known_mines` raises `NotImplementedError`; a raise is modelled
  as `Except.error`.
* `MinesweeperAI.add_knowledge` calls `self.mark_mine`, which calls
  `self.add_knowledge` back.  The recursion is embedded with an explicit
  fuel parameter (`add_knowledge_fuel`); every recursive call passes
  `count = 0, is_mine = true`, and such a call provably performs no further
  recursive call (its local `mines` set stays empty), so fuel `2` already
  computes the exact semantics — `add_knowledge_fuel_stable` below proves
  that the result is fuel-independent from `2` on.
-/

namespace MinesweeperAI

abbrev Cell := Nat × Nat

/-- Python `set.add` on a duplicate-free list: append the element when absent. -/
def setAdd (xs : List Cell) (c : Cell) : List Cell :=
  if c ∈ xs then xs else xs ++ [c]

/-- Python set difference `xs - ys`. -/
def setDiff (xs ys : List Cell) : List Cell :=
  xs.filter (fun c => decide (c ∉ ys))

/-- `Sentence.__init__` stores `cells`, `count` and the `is_mine` flag
(`src/minesweeper.py` lines 94-97). -/
structure Sentence where
  cells : List Cell
  count : Int
  is_mine : Bool
deriving DecidableEq, Repr

/-- `Sentence.known_mines` (lines 105-109) unconditionally raises
`NotImplementedError`; the raise is modelled as `Except.error`. -/
def Sentence.known_mines (_ : Sentence) : Except String (List Cell) :=
  Except.error "NotImplementedError"

/-- `Sentence.known_safes` (lines 111-115) unconditionally raises
`NotImplementedError`. -/
def Sentence.known_safes (_ : Sentence) : Except String (List Cell) :=
  Except.error "NotImplementedError"

/-- `Sentence.__eq__` (lines 99-100): cell sets and counts are compared,
the `is_mine` flag is ignored. -/
def Sentence.eq (a b : Sentence) : Prop :=
  (∀ c, c ∈ a.cells ↔ c ∈ b.cells) ∧ a.count = b.count

/-- Dict lookup `k in d` / `d[k]`. -/
def dictGet (k : Cell) (d : List (Cell × Sentence)) : Option Sentence :=
  (d.find? (fun p => decide (p.1 = k))).map Prod.snd

/-- Dict assignment `d[k] = v`: replace in place when the key is present,
append otherwise (Python-dict insertion-order semantics). -/
def dictSet (k : Cell) (v : Sentence) (d : List (Cell × Sentence)) :
    List (Cell × Sentence) :=
  if (d.find? (fun p => decide (p.1 = k))).isSome then
    d.map (fun p => if p.1 = k then (k, v) else p)
  else
    d ++ [(k, v)]

/-- The mutable state of `MinesweeperAI` (`__init__`, lines 137-151). -/
structure AIState where
  height : Nat
  width : Nat
  moves_made : List Cell
  mines : List Cell
  safes : List Cell
  knowledge : List (Cell × Sentence)
deriving DecidableEq, Repr

/-- `MinesweeperAI.__init__(height, width)`: all sets and the knowledge
dict start empty. -/
def initAI (height width : Nat) : AIState :=
  ⟨height, width, [], [], [], []⟩

/-- `MinesweeperAI.mark_safe(cell)` (lines 162-167): only
`self.safes.add(cell)`. -/
def mark_safe (s : AIState) (cell : Cell) : AIState :=
  { s with safes := setAdd s.safes cell }

/-- Accumulator of the neighbor double loop in `add_knowledge`
(lines 187-232): the local `neighbors` set, the (mutated) incoming
`count`, the local `mines` set, and the agent state. -/
structure Loop where
  nbrs : List Cell
  cnt : Int
  lm : List Cell
  st : AIState
deriving DecidableEq, Repr

/-- One iteration of the neighbor double loop of `add_knowledge`
(lines 191-232) at coordinate `ij`, for opened cell `cell` and flag
`is_mine`:
* `neighbors.add((i,j))`;
* if `(i,j)` has a sentence: when `sentence.is_mine` and `count` is
  truthy, `count -= 1`;
* then if `cell ∈ sentence.cells`: remove it; when `is_mine`, also
  `sentence.count -= 1` and, if the count reaches `0`, mark every
  remaining cell of the sentence safe; when not `is_mine` and the shrunk
  sentence has `len(cells) == count > 0`, add its cells to the local
  `mines` set. -/
def stepNbr (cell : Cell) (is_mine : Bool) (acc : Loop) (ij : Cell) : Loop :=
  let acc := { acc with nbrs := setAdd acc.nbrs ij }
  match dictGet ij acc.st.knowledge with
  | none => acc
  | some sent =>
    let cnt := if sent.is_mine = true ∧ acc.cnt ≠ 0 then acc.cnt - 1 else acc.cnt
    if cell ∈ sent.cells then
      let cells2 := sent.cells.erase cell
      if is_mine then
        let sent2 : Sentence := ⟨cells2, sent.count - 1, sent.is_mine⟩
        let st2 := { acc.st with knowledge := dictSet ij sent2 acc.st.knowledge }
        let st3 := if sent2.count = 0 then cells2.foldl mark_safe st2 else st2
        { acc with cnt := cnt, st := st3 }
      else
        let sent2 : Sentence := ⟨cells2, sent.count, sent.is_mine⟩
        let st2 := { acc.st with knowledge := dictSet ij sent2 acc.st.knowledge }
        let lm2 := if (cells2.length : Int) = sent.count ∧ 0 < cells2.length then
            cells2.foldl setAdd acc.lm
          else acc.lm
        { acc with cnt := cnt, st := st2, lm := lm2 }
    else
      { acc with cnt := cnt }

/-- The coordinates visited by the double loop
`for i in range(max(0, x-1), min(self.width, x+2)):`
`  for j in range(max(0, y-1), min(self.height, y+2)):`
(lines 189-190) — note the source clips the row index `i` with `width`
and the column index `j` with `height`. -/
def neighborPairs (s : AIState) (cell : Cell) : List Cell :=
  (List.range' (cell.1 - 1) (min s.width (cell.1 + 2) - (cell.1 - 1))).flatMap
    (fun i => (List.range' (cell.2 - 1) (min s.height (cell.2 + 2) - (cell.2 - 1))).map
      (fun j => (i, j)))

/-- Lines 185-232 of `add_knowledge`: `self.moves_made.add(cell)` followed
by the neighbor double loop (`stepNbr` over `neighborPairs`), starting from
an empty `neighbors` set, the incoming `count` and an empty local `mines`
set. -/
def addLoop (s : AIState) (cell : Cell) (count : Int) (is_mine : Bool) : Loop :=
  let s1 := { s with moves_made := setAdd s.moves_made cell }
  (neighborPairs s1 cell).foldl (stepNbr cell is_mine) ⟨[], count, [], s1⟩

/-- Lines 234-247 of `add_knowledge`:
`neighbors = neighbors - self.moves_made - self.mines`, store
`self.knowledge[cell] = Sentence(neighbors, count, is_mine)`, then the
`if len(neighbors) == count and count:` / `elif count == 0 and not is_mine:`
branches.  Returns the local `mines` set together with the updated state. -/
def addPost (acc : Loop) (cell : Cell) (is_mine : Bool) : List Cell × AIState :=
  let nbrs := setDiff (setDiff acc.nbrs acc.st.moves_made) acc.st.mines
  let st1 := { acc.st with
    knowledge := dictSet cell ⟨nbrs, acc.cnt, is_mine⟩ acc.st.knowledge }
  if (nbrs.length : Int) = acc.cnt ∧ acc.cnt ≠ 0 then
    (nbrs.foldl setAdd acc.lm, st1)
  else if acc.cnt = 0 ∧ is_mine = false then
    (acc.lm, nbrs.foldl mark_safe st1)
  else (acc.lm, st1)

/-- `MinesweeperAI.add_knowledge(cell, count, is_mine)` (lines 169-252),
with explicit fuel bounding the `mark_mine`/`add_knowledge` recursion:
the loop stage (`addLoop`), the sentence-store and `if`/`elif` stage
(`addPost`), and finally `for mine in mines: self.mark_mine(mine)` — each
such call is `self.mines.add(mine)` followed by
`self.add_knowledge(mine, 0, True)` (lines 153-160, 249-250).  Every
recursive call carries `count = 0, is_mine = true` and performs no further
recursion (`add_knowledge_fuel_stable`), so the fuel never runs out when
it starts at `2`. -/
def add_knowledge_fuel : Nat → AIState → Cell → Int → Bool → AIState
  | 0, s, _, _, _ => s
  | f + 1, s, cell, count, is_mine =>
    let p := addPost (addLoop s cell count is_mine) cell is_mine
    p.1.foldl
      (fun t m => add_knowledge_fuel f { t with mines := setAdd t.mines m } m 0 true) p.2

/-- `MinesweeperAI.mark_mine(cell)` (lines 153-160): `self.mines.add(cell)`
then `self.add_knowledge(cell, 0, True)`. -/
def mark_mine (s : AIState) (cell : Cell) : AIState :=
  add_knowledge_fuel 2 { s with mines := setAdd s.mines cell } cell 0 true

/-- `add_knowledge` as invoked from outside; fuel `2` is exact
(`add_knowledge_fuel_stable`). -/
def add_knowledge (s : AIState) (cell : Cell) (count : Int) (is_mine : Bool) : AIState :=
  add_knowledge_fuel 2 s cell count is_mine

/-- The spec's `update(cell, count)`: the board driver reports a revealed
cell's mine count; this is `add_knowledge(cell, count, False)`. -/
def update (s : AIState) (cell : Cell) (count : Int) : AIState :=
  add_knowledge s cell count false

/-- `MinesweeperAI.make_safe_move` (lines 254-259): some element of
`self.safes - self.moves_made`, or `None`.  `random.sample` is modelled by
taking the first element of the difference. -/
def make_safe_move (s : AIState) : Option Cell :=
  (setDiff s.safes s.moves_made).head?

/-- `MinesweeperAI.make_random_move` (lines 261-265):
`for i in range(0,7): for j in range(0,7):` return the first `(i, j)` not
in `self.moves_made`; `None` when the loop falls through. -/
def make_random_move (s : AIState) : Option Cell :=
  ((List.range 7).flatMap (fun i => (List.range 7).map (fun j => ((i : Nat), (j : Nat))))).find?
    (fun c => decide (c ∉ s.moves_made))

/-- The operations an external driver can perform on one agent instance.
`make_safe_move` and `make_random_move` read the state without mutating it. -/
inductive Op where
  | update (cell : Cell) (count : Int)
  | mark_mine (cell : Cell)
  | mark_safe (cell : Cell)
  | make_safe_move
  | make_random_move
deriving DecidableEq, Repr

/-- Effect of one operation on the agent state. -/
def exec (s : AIState) : Op → AIState
  | .update cell count => update s cell count
  | .mark_mine cell => mark_mine s cell
  | .mark_safe cell => mark_safe s cell
  | .make_safe_move => s
  | .make_random_move => s

/-- Run a sequence of operations. -/
def run (s : AIState) (ops : List Op) : AIState :=
  ops.foldl exec s

/-- The 49 cells `(i, j)` with `i, j < 7`: exactly the cells
`make_random_move` ever examines. -/
def cellsBelow7 : List Cell :=
  (List.range 7).flatMap (fun i => (List.range 7).map (fun j => ((i : Nat), (j : Nat))))

/-- `t` extends `s`: each of the three global cell sets only grew. -/
def Grows (s t : AIState) : Prop :=
  s.moves_made ⊆ t.moves_made ∧ s.safes ⊆ t.safes ∧ s.mines ⊆ t.mines

theorem subset_setAdd (xs : List Cell) (c : Cell) : xs ⊆ setAdd xs c := by
  intro a ha
  unfold setAdd
  split
  · exact ha
  · exact List.mem_append_left _ ha

theorem mem_setAdd_self (xs : List Cell) (c : Cell) : c ∈ setAdd xs c := by
  unfold setAdd
  split
  · assumption
  · exact List.mem_append_right _ (List.mem_singleton.mpr rfl)

theorem grows_refl (s : AIState) : Grows s s :=
  ⟨List.Subset.refl _, List.Subset.refl _, List.Subset.refl _⟩

theorem grows_trans {a b c : AIState} (h1 : Grows a b) (h2 : Grows b c) : Grows a c :=
  ⟨h1.1.trans h2.1, h1.2.1.trans h2.2.1, h1.2.2.trans h2.2.2⟩

theorem grows_mark_safe (s : AIState) (c : Cell) : Grows s (mark_safe s c) :=
  ⟨List.Subset.refl _, subset_setAdd _ _, List.Subset.refl _⟩

theorem grows_knowledge (s : AIState) (K : List (Cell × Sentence)) :
    Grows s { s with knowledge := K } :=
  ⟨List.Subset.refl _, List.Subset.refl _, List.Subset.refl _⟩

theorem grows_mines_setAdd (s : AIState) (m : Cell) :
    Grows s { s with mines := setAdd s.mines m } :=
  ⟨List.Subset.refl _, List.Subset.refl _, subset_setAdd _ _⟩

theorem grows_moves_setAdd (s : AIState) (c : Cell) :
    Grows s { s with moves_made := setAdd s.moves_made c } :=
  ⟨subset_setAdd _ _, List.Subset.refl _, List.Subset.refl _⟩

theorem grows_foldl {α : Type} {g : AIState → α → AIState}
    (h : ∀ t a, Grows t (g t a)) :
    ∀ (l : List α) (t : AIState), Grows t (l.foldl g t) := by
  intro l
  induction l with
  | nil => intro t; exact grows_refl t
  | cons a l ih => intro t; exact grows_trans (h t a) (ih (g t a))

theorem grows_foldl_loop {g : Loop → Cell → Loop}
    (h : ∀ acc a, Grows acc.st ((g acc a).st)) :
    ∀ (l : List Cell) (acc : Loop), Grows acc.st ((l.foldl g acc).st) := by
  intro l
  induction l with
  | nil => intro acc; exact grows_refl _
  | cons a l ih => intro acc; exact grows_trans (h acc a) (ih (g acc a))

theorem stepNbr_grows (cell : Cell) (b : Bool) (acc : Loop) (ij : Cell) :
    Grows acc.st (stepNbr cell b acc ij).st := by
  unfold stepNbr
  dsimp only
  split
  · exact grows_refl _
  · split_ifs <;> dsimp only <;>
      first
        | exact grows_refl _
        | exact grows_knowledge _ _
        | exact grows_trans (grows_knowledge _ _) (grows_foldl grows_mark_safe _ _)

theorem grows_run_mines (f : Nat)
    (ih : ∀ s c k b, Grows s (add_knowledge_fuel f s c k b)) (l : List Cell) (t : AIState) :
    Grows t (l.foldl
      (fun t m => add_knowledge_fuel f { t with mines := setAdd t.mines m } m 0 true) t) :=
  grows_foldl (fun t m => grows_trans (grows_mines_setAdd t m) (ih _ m 0 true)) l t

theorem grows_addLoop (s : AIState) (cell : Cell) (count : Int) (b : Bool) :
    Grows s (addLoop s cell count b).st := by
  unfold addLoop
  dsimp only
  exact grows_trans (grows_moves_setAdd s cell)
    (grows_foldl_loop (stepNbr_grows cell b) _ ⟨[], count, [], _⟩)

theorem mem_moves_addLoop (s : AIState) (cell : Cell) (count : Int) (b : Bool) :
    cell ∈ (addLoop s cell count b).st.moves_made := by
  unfold addLoop
  dsimp only
  exact (grows_foldl_loop (stepNbr_grows cell b) _ ⟨[], count, [], _⟩).1 (mem_setAdd_self _ _)

theorem grows_addPost (acc : Loop) (cell : Cell) (b : Bool) :
    Grows acc.st (addPost acc cell b).2 := by
  unfold addPost
  dsimp only
  split_ifs <;> dsimp only <;>
    first
      | exact grows_knowledge _ _
      | exact grows_trans (grows_knowledge _ _) (grows_foldl grows_mark_safe _ _)

theorem add_knowledge_fuel_grows :
    ∀ (f : Nat) (s : AIState) (c : Cell) (k : Int) (b : Bool),
      Grows s (add_knowledge_fuel f s c k b) := by
  intro f
  induction f with
  | zero => intro s c k b; exact grows_refl s
  | succ f ih =>
    intro s c k b
    simp only [add_knowledge_fuel]
    exact grows_trans (grows_addLoop s c k b)
      (grows_trans (grows_addPost _ c b) (grows_run_mines f ih _ _))

theorem add_knowledge_fuel_mem_moves (f : Nat) (s : AIState) (c : Cell) (k : Int) (b : Bool) :
    c ∈ (add_knowledge_fuel (f + 1) s c k b).moves_made := by
  simp only [add_knowledge_fuel]
  exact (grows_trans (grows_addPost _ c b)
      (grows_run_mines f (fun s c k b => add_knowledge_fuel_grows f s c k b) _ _)).1
    (mem_moves_addLoop s c k b)

theorem stepNbr_true_cnt_lm (cell : Cell) (acc : Loop) (ij : Cell) (h : acc.cnt = 0) :
    (stepNbr cell true acc ij).cnt = 0 ∧ (stepNbr cell true acc ij).lm = acc.lm := by
  unfold stepNbr
  dsimp only
  split
  · exact ⟨h, rfl⟩
  · split_ifs <;> simp_all

theorem foldl_stepNbr_true_cnt_lm (cell : Cell) :
    ∀ (l : List Cell) (acc : Loop), acc.cnt = 0 → acc.lm = [] →
      (l.foldl (stepNbr cell true) acc).cnt = 0 ∧ (l.foldl (stepNbr cell true) acc).lm = [] := by
  intro l
  induction l with
  | nil => intro acc h0 h1; exact ⟨h0, h1⟩
  | cons a l ih =>
    intro acc h0 h1
    have h := stepNbr_true_cnt_lm cell acc a h0
    exact ih _ h.1 (h.2.trans h1)

theorem addLoop_true_cnt_lm (s : AIState) (cell : Cell) :
    (addLoop s cell 0 true).cnt = 0 ∧ (addLoop s cell 0 true).lm = [] := by
  unfold addLoop
  dsimp only
  exact foldl_stepNbr_true_cnt_lm cell _ ⟨[], 0, [], _⟩ rfl rfl

theorem addPost_true_no_mines (acc : Loop) (cell : Cell)
    (h0 : acc.cnt = 0) (h1 : acc.lm = []) : (addPost acc cell true).1 = [] := by
  unfold addPost
  dsimp only
  rw [h0, h1]
  simp

/-- A recursive `add_knowledge(cell, 0, True)` call (as issued by
`mark_mine`) collects no further mines, so its result does not depend on
the remaining fuel. -/
theorem add_knowledge_fuel_true0 (f : Nat) (s : AIState) (c : Cell) :
    add_knowledge_fuel (f + 1) s c 0 true = add_knowledge_fuel 1 s c 0 true := by
  have h := addLoop_true_cnt_lm s c
  have hp := addPost_true_no_mines (addLoop s c 0 true) c h.1 h.2
  show ((addPost (addLoop s c 0 true) c true).1).foldl
      (fun t m => add_knowledge_fuel f { t with mines := setAdd t.mines m } m 0 true)
      ((addPost (addLoop s c 0 true) c true).2) =
    ((addPost (addLoop s c 0 true) c true).1).foldl
      (fun t m => add_knowledge_fuel 0 { t with mines := setAdd t.mines m } m 0 true)
      ((addPost (addLoop s c 0 true) c true).2)
  rw [hp]
  simp only [List.foldl_nil]

/-- The recursion depth of `add_knowledge` is at most two, so fuel `2`
computes the exact semantics: adding fuel never changes the result. -/
theorem add_knowledge_fuel_stable (f : Nat) (s : AIState) (c : Cell) (k : Int) (b : Bool) :
    add_knowledge_fuel (f + 2) s c k b = add_knowledge_fuel 2 s c k b := by
  show ((addPost (addLoop s c k b) c b).1).foldl
      (fun t m => add_knowledge_fuel (f + 1) { t with mines := setAdd t.mines m } m 0 true)
      ((addPost (addLoop s c k b) c b).2) =
    ((addPost (addLoop s c k b) c b).1).foldl
      (fun t m => add_knowledge_fuel 1 { t with mines := setAdd t.mines m } m 0 true)
      ((addPost (addLoop s c k b) c b).2)
  exact List.foldl_ext _ _ _ (fun t m _ => add_knowledge_fuel_true0 f _ m)

theorem grows_exec (s : AIState) (op : Op) : Grows s (exec s op) := by
  cases op with
  | update cell count => exact add_knowledge_fuel_grows 2 s cell count false
  | mark_mine cell =>
    exact grows_trans (grows_mines_setAdd s cell) (add_knowledge_fuel_grows 2 _ cell 0 true)
  | mark_safe cell => exact grows_mark_safe s cell
  | make_safe_move => exact grows_refl s
  | make_random_move => exact grows_refl s

/-- C1.  The claim states that after an `update` call the engine performs
subset inference: from live sentences `{(0,0),(0,1),(0,2)} = 1` and
`{(0,0),(0,1)} = 1` it should conclude that `(0,2)` is safe and store the
derived sentence `{(0,2)} = 0`.  Evaluating `add_knowledge` on a knowledge
base holding exactly those two sentences shows neither happens: after
`update((3,3), 1)` the cell `(0,2)` is not in `safes`, and no sentence of
the knowledge base is `{(0,2)} = 0` (the three stored sentences are the
two originals and the fresh one for `(3,3)`).  The code contains no
subset-inference step at all, contradicting step 5 of `add_knowledge`'s
own docstring. -/
theorem claim_C1_no_subset_inference :
    ((0, 2) : Cell) ∉ (update { initAI 8 8 with knowledge :=
        [((5, 5), ⟨[(0, 0), (0, 1), (0, 2)], 1, false⟩),
         ((6, 6), ⟨[(0, 0), (0, 1)], 1, false⟩)] } (3, 3) 1).safes ∧
      ∀ p ∈ (update { initAI 8 8 with knowledge :=
        [((5, 5), ⟨[(0, 0), (0, 1), (0, 2)], 1, false⟩),
         ((6, 6), ⟨[(0, 0), (0, 1)], 1, false⟩)] } (3, 3) 1).knowledge,
        ¬(p.2.count = 0 ∧ ((0, 2) : Cell) ∈ p.2.cells ∧ p.2.cells.length = 1) := by
  decide

/-- C2.  `Sentence.known_mines` never returns the subset of must-mine
cells: its body is `raise NotImplementedError`, contradicting both the
claim and its own docstring.  Evaluation at the sentence
`{(0,0),(0,1)} = 2` (where the claim demands the whole cell set back). -/
theorem claim_C2_known_mines_raises :
    Sentence.known_mines ⟨[(0, 0), (0, 1)], 2, false⟩ =
      Except.error "NotImplementedError" := rfl

/-- C3.  On a `3 × 1` board (`height = 3`, `width = 1`) the sentence
stored by `update((0,0), 0)` is over `{(0,1)}` — a cell outside the board,
produced because the loop clips the row index with `width` and the column
index with `height` — instead of the true neighbor set `{(1,0)}`; the
claim's clipping to `[0, height) × [0, width)` is violated. -/
theorem claim_C3_swapped_bounds :
    dictGet (0, 0) (update (initAI 3 1) (0, 0) 0).knowledge =
        some ⟨[(0, 1)], 0, false⟩ ∧
      ((1, 0) : Cell) ∉ [((0, 1) : Cell)] := by
  decide

/-- C4.  After `update((0,0), 1)` on a fresh `8 × 8` agent the opened cell
is in `moves_made` but not in `safes`: `add_knowledge` never calls
`mark_safe` on the opened cell, contradicting step 2 of its own docstring,
and `moves_made ⊆ safes` fails. -/
theorem claim_C4_cell_not_marked_safe :
    ((0, 0) : Cell) ∈ (update (initAI 8 8) (0, 0) 1).moves_made ∧
      ((0, 0) : Cell) ∉ (update (initAI 8 8) (0, 0) 1).safes := by
  decide

/-- C5.  A single honest `update((0,0), 0)` on a fresh `8 × 8` agent
(consistent with a mine-free board) leaves the live sentence
`{(0,1),(1,0),(1,1)} = 0` in the knowledge base while marking all three of
its cells safe — so a live sentence contains cells of `safes`,
violating the claimed invariant: `mark_safe` never prunes the cell from
stored sentences. -/
theorem claim_C5_sentence_invariant_violated :
    dictGet (0, 0) (update (initAI 8 8) (0, 0) 0).knowledge =
        some ⟨[(0, 1), (1, 0), (1, 1)], 0, false⟩ ∧
      ((0, 1) : Cell) ∈ (update (initAI 8 8) (0, 0) 0).safes := by
  decide

/-- C6.  The two-operation sequence `update((0,0), 0); mark_mine((0,1))`
puts `(0,1)` into `safes` (as a neighbor of a 0-count cell) and then into
`mines`: `mark_mine` performs no disjointness check, so
`safes ∩ mines = ∅` is not preserved. -/
theorem claim_C6_safes_mines_overlap :
    ((0, 1) : Cell) ∈ (run (initAI 8 8) [.update (0, 0) 0, .mark_mine (0, 1)]).safes ∧
      ((0, 1) : Cell) ∈ (run (initAI 8 8) [.update (0, 0) 0, .mark_mine (0, 1)]).mines := by
  decide

/-- C7.  `make_random_move` iterates `range(0,7) × range(0,7)` only: on an
`8 × 8` agent whose 49 cells `(i,j)` with `i,j ≤ 6` are all visited it
returns `None` although the board cell `(0,7)` is unvisited and not a
mine — so "no move available" is signalled while moves remain.  It also
never consults `mines`: on a state whose only mine is the unvisited
`(0,0)` it returns exactly that mine. -/
theorem claim_C7_random_move_wrong_range :
    (make_random_move { initAI 8 8 with moves_made := cellsBelow7 } = none ∧
        ((0, 7) : Cell) ∉ cellsBelow7) ∧
      make_random_move { initAI 8 8 with mines := [(0, 0)] } = some (0, 0) ∧
        ((0, 0) : Cell) ∈ ({ initAI 8 8 with mines := [(0, 0)] } : AIState).mines := by
  decide

/-- C8.  Monotonicity: across any sequence of `update`, `mark_mine`,
`mark_safe`, `make_safe_move` and `make_random_move` operations, the sets
`moves_made`, `safes` and `mines` only grow — every method only ever calls
`set.add` on them (`make_safe_move`/`make_random_move` read the state
without mutating it). -/
theorem claim_C8_sets_only_grow (s : AIState) (ops : List Op) :
    s.moves_made ⊆ (run s ops).moves_made ∧
      s.safes ⊆ (run s ops).safes ∧ s.mines ⊆ (run s ops).mines :=
  grows_foldl grows_exec ops s

/-- C9.  `mark_safe(cell)` adds the cell to `safes` (keeping every
previous member) and leaves every other component of the agent state —
`moves_made`, `mines`, the entire knowledge base (hence every stored
sentence's cells and count), `height` and `width` — unchanged. -/
theorem claim_C9_mark_safe_frame (s : AIState) (c : Cell) :
    c ∈ (mark_safe s c).safes ∧
      (mark_safe s c).moves_made = s.moves_made ∧
      (mark_safe s c).mines = s.mines ∧
      (mark_safe s c).knowledge = s.knowledge ∧
      (mark_safe s c).height = s.height ∧
      (mark_safe s c).width = s.width ∧
      s.safes ⊆ (mark_safe s c).safes :=
  ⟨mem_setAdd_self _ _, rfl, rfl, rfl, rfl, rfl, subset_setAdd _ _⟩

/-- C10.  After `mark_mine(cell)` the cell is a member of `mines`
(`self.mines.add(cell)`) and of `moves_made` (the recursive
`add_knowledge(cell, 0, True)` call records it as a move made). -/
theorem claim_C10_mark_mine_records_move (s : AIState) (c : Cell) :
    c ∈ (mark_mine s c).mines ∧ c ∈ (mark_mine s c).moves_made :=
  ⟨(add_knowledge_fuel_grows 2 _ c 0 true).2.2 (mem_setAdd_self _ _),
    add_knowledge_fuel_mem_moves 1 _ c 0 true⟩

end MinesweeperAI
